import Mathlib

/-!
Verification of the space-invaders game core (`src/bin/main.rs`).

The embedding translates the Rust source shallowly:
  * `f32` coordinates become `ℚ` (all arithmetic in the program is exact
    addition/subtraction/halving of small values);
  * the quicksilver `Image` handle becomes an opaque `Nat` handle;
  * `HashMap<String, Box<Image>>` becomes an association list keyed by an
    enumeration of the two asset names used by the program, with insert
    prepending (first-match lookup gives the overwrite semantics);
  * the imperative mutation in `Game::update` / `Game::handle_key` becomes
    explicit state passing on a `Game` structure.
-/

/-- Opaque handle for a loaded quicksilver image. -/
abbrev Image := Nat

/-- The two asset names `"player"` and `"enemy"` used as keys of the image table. -/
inductive ImgKey where
  | player
  | enemy
deriving DecidableEq

/-- The quicksilver colours the program mentions (`GREEN`, `WHITE`, `BLACK`). -/
inductive GColor where
  | green
  | white
  | black
deriving DecidableEq

/-- quicksilver `Rectangle`: top-left corner `pos`, extent `size`. -/
structure Rect where
  posX : ℚ
  posY : ℚ
  sizeX : ℚ
  sizeY : ℚ
deriving DecidableEq

/-- Source `enum EntityView { None, Image(Box<Image>), Color(Color) }`. -/
inductive EntityView where
  | noView
  | image (img : Image)
  | color (c : GColor)
deriving DecidableEq

/-- Source `struct Entity { rect: Rectangle, view: EntityView }`. -/
structure Entity where
  rect : Rect
  view : EntityView
deriving DecidableEq

/-- Source `enum Movement { None, Left, Right }`. -/
inductive Movement where
  | noMove
  | left
  | right
deriving DecidableEq

/-- Source `struct Game` with its five fields. -/
structure Game where
  player : Entity
  enemies : List Entity
  bullets : List Entity
  player_movement : Movement
  images : List (ImgKey × Image)
deriving DecidableEq

/-- Keys delivered by the event system; every key other than Left/Right/Space
behaves identically in this program and is collapsed to `other`. -/
inductive Key where
  | left
  | right
  | space
  | other
deriving DecidableEq

/-- quicksilver `KeyboardEvent`: a key identifier plus its down/up state. -/
structure KeyboardEvent where
  key : Key
  is_down : Bool
deriving DecidableEq

namespace Entity

/-- Source `Entity::new`: the given point is the centre; `rect.pos` is the top-left corner. -/
def new (x y width height : ℚ) (view : EntityView) : Entity :=
  { rect :=
      { posX := x - width / 2
        posY := y - height / 2
        sizeX := width
        sizeY := height }
    view := view }

/-- Source `Entity::new_player`: 30×30. -/
def new_player (x y : ℚ) (view : EntityView) : Entity :=
  new x y 30 30 view

/-- Source `Entity::new_enemy`: 30×30. -/
def new_enemy (x y : ℚ) (view : EntityView) : Entity :=
  new x y 30 30 view

/-- Source `Entity::new_bullet`: 2×30. -/
def new_bullet (x y : ℚ) (view : EntityView) : Entity :=
  new x y 2 30 view

/-- Modelled from the spec: `Rectangle::overlaps_rectangle` lives in the external
quicksilver crate, not under `src/`.  Spec: "axis-aligned rectangle intersection —
true if rectangles share any area", with touching-but-not-overlapping edges
returning false; hence strict inequalities on both axes. -/
def overlaps_rectangle (a b : Rect) : Bool :=
  decide (a.posX < b.posX + b.sizeX) && decide (a.posX + a.sizeX > b.posX) &&
  decide (a.posY < b.posY + b.sizeY) && decide (a.posY + a.sizeY > b.posY)

/-- Source `Entity::hit_test`. -/
def hit_test (self entity : Entity) : Bool :=
  overlaps_rectangle self.rect entity.rect

/-- Source `Entity::move_left`: `self.rect.pos.x -= amount`. -/
def move_left (self : Entity) (amount : ℚ) : Entity :=
  { self with rect := { self.rect with posX := self.rect.posX - amount } }

/-- Source `Entity::move_right`: `self.rect.pos.x += amount`. -/
def move_right (self : Entity) (amount : ℚ) : Entity :=
  { self with rect := { self.rect with posX := self.rect.posX + amount } }

/-- Source `Entity::move_down`: `self.rect.pos.y += amount`. -/
def move_down (self : Entity) (amount : ℚ) : Entity :=
  { self with rect := { self.rect with posY := self.rect.posY + amount } }

/-- Source `Entity::move_up`: `self.rect.pos.y -= amount`. -/
def move_up (self : Entity) (amount : ℚ) : Entity :=
  { self with rect := { self.rect with posY := self.rect.posY - amount } }

/-- Source `Entity::center`: `pos + size / 2` on each axis. -/
def center (self : Entity) : ℚ × ℚ :=
  (self.rect.posX + self.rect.sizeX / 2, self.rect.posY + self.rect.sizeY / 2)

/-- Source `Entity::set_view`. -/
def set_view (self : Entity) (view : EntityView) : Entity :=
  { self with view := view }

end Entity

namespace Game

/-- Source `HashMap::insert` on the association-list model: prepend, first match wins. -/
def imgInsert (m : List (ImgKey × Image)) (k : ImgKey) (v : Image) :
    List (ImgKey × Image) :=
  (k, v) :: m

/-- Source `HashMap::get(..).unwrap()`: first-match lookup (the program only looks up
keys it has just inserted, so the `unwrap` never panics; `getD 0` realises that). -/
def imgGet (m : List (ImgKey × Image)) (k : ImgKey) : Image :=
  (m.lookup k).getD 0

/-- Source `Game::new`. -/
def new : Game :=
  { player := Entity.new_player 400 550 EntityView.noView
    enemies := []
    bullets := []
    player_movement := Movement.noMove
    images := [] }

/-- Source `Game::init`: the two `Image::load(..).await.unwrap()` calls are external
I/O, so the loaded handles are parameters; the rest follows the source: insert
both images, set the player's view from the table, push 9 enemies for
`i in 1..10` at `(150 + i*50, 20)` sharing the enemy image. -/
def init (g : Game) (playerImg enemyImg : Image) : Game :=
  let images := imgInsert (imgInsert g.images ImgKey.player playerImg) ImgKey.enemy enemyImg
  let player := g.player.set_view (EntityView.image (imgGet images ImgKey.player))
  let enemies := g.enemies ++ (List.range' 1 9).map (fun i =>
    Entity.new_enemy (150 + (i : ℚ) * 50) 20 (EntityView.image (imgGet images ImgKey.enemy)))
  { g with images := images, player := player, enemies := enemies }

/-- One iteration of the bullet loop body in `Game::update`: the bullet is
moved up by 20 in place, then `self.enemies.retain(|enemy| !bullet.hit_test(enemy))`
runs against the enemy collection as it stands. The accumulator carries the
current enemy collection and the bullets already processed (mutated in place). -/
def bulletStep (acc : List Entity × List Entity) (bullet : Entity) :
    List Entity × List Entity :=
  let b := bullet.move_up 20
  (acc.1.filter (fun enemy => !b.hit_test enemy), acc.2 ++ [b])

/-- Source `Game::update`: move the player by intent, move every enemy down 1, then
run the bullet loop. -/
def update (g : Game) : Game :=
  let player :=
    match g.player_movement with
    | Movement.left => g.player.move_left 10
    | Movement.right => g.player.move_right 10
    | Movement.noMove => g.player
  let enemies := g.enemies.map (fun enemy => enemy.move_down 1)
  let res := g.bullets.foldl bulletStep (enemies, [])
  { g with player := player, enemies := res.1, bullets := res.2 }

/-- Source `Game::handle_key`: Left/Right set or conditionally clear the movement
intent; Space pushes a bullet at the player's centre with a green colour view.
The source's Space arm does not consult `event.is_down()`. -/
def handle_key (g : Game) (event : KeyboardEvent) : Game :=
  match event.key with
  | Key.left =>
      if event.is_down then { g with player_movement := Movement.left }
      else if g.player_movement = Movement.left then
        { g with player_movement := Movement.noMove }
      else g
  | Key.right =>
      if event.is_down then { g with player_movement := Movement.right }
      else if g.player_movement = Movement.right then
        { g with player_movement := Movement.noMove }
      else g
  | Key.space =>
      let c := g.player.center
      { g with bullets :=
          g.bullets ++ [Entity.new_bullet c.1 c.2 (EntityView.color GColor.green)] }
  | Key.other => g

end Game

/-- The two operations the application loop applies to the game state:
a `Game::update` tick or a dispatched keyboard event. -/
inductive GameOp where
  | tick
  | key (e : KeyboardEvent)

/-- Apply one operation to the game state. -/
def GameOp.apply (g : Game) : GameOp → Game
  | GameOp.tick => g.update
  | GameOp.key e => g.handle_key e

/-- A one-enemy, no-bullet game used to instantiate proved theorems. -/
def gW : Game :=
  { Game.new with enemies := [Entity.new_enemy 200 20 EntityView.noView] }

/-- The down-by-1 image of `gW`'s single enemy. -/
def eW : Entity := (Entity.new_enemy 200 20 EntityView.noView).move_down 1

/-- A point strictly interior to an axis-aligned rectangle. -/
def Rect.containsInterior (r : Rect) (p : ℚ × ℚ) : Prop :=
  r.posX < p.1 ∧ p.1 < r.posX + r.sizeX ∧ r.posY < p.2 ∧ p.2 < r.posY + r.sizeY

/-- The pair-carrying bullet loop of `Game.update` splits into independent
characterisations of the surviving enemies and the moved bullets. -/
theorem Game.bulletLoop_spec (bs : List Entity) (es acc : List Entity) :
    (bs.foldl Game.bulletStep (es, acc)).1 =
      bs.foldl
        (fun cur b => cur.filter (fun enemy => !(b.move_up 20).hit_test enemy)) es
    ∧ (bs.foldl Game.bulletStep (es, acc)).2 = acc ++ bs.map (fun b => b.move_up 20) := by
  induction bs generalizing es acc with
  | nil => simp
  | cons b rest ih =>
      simp only [List.foldl_cons, List.map_cons, Game.bulletStep]
      rw [(ih _ _).1, (ih _ _).2]
      simp

/-- C1: in `Game.update()`, each bullet in collection order is moved up by 20
and then the enemy collection is filtered by overlap against that bullet's
post-move rectangle; the filter for each bullet runs on the enemy collection as
it stands at that point of the fold, so earlier bullets' removals are visible
to later bullets' overlap tests, and the bullets themselves all survive, moved
up by 20. -/
theorem C1_update_bullet_pass (g : Game) :
    (g.update).enemies =
      g.bullets.foldl
        (fun cur b => cur.filter (fun enemy => !(b.move_up 20).hit_test enemy))
        (g.enemies.map (fun enemy => enemy.move_down 1))
    ∧ (g.update).bullets = g.bullets.map (fun b => b.move_up 20) := by
  have h := Game.bulletLoop_spec g.bullets (g.enemies.map (fun enemy => enemy.move_down 1)) []
  constructor
  · exact h.1
  · show (g.bullets.foldl Game.bulletStep (g.enemies.map (fun enemy => enemy.move_down 1), [])).2 = _
    rw [h.2]
    simp

/-- C3: one `Game.update()` moves the player's x-position by exactly −10 under
Left intent, +10 under Right intent, and leaves it unchanged under no intent;
the y-position never changes and no clamp against screen edges is applied. -/
theorem C3_player_step (g : Game) :
    ((g.update).player.rect.posX =
      match g.player_movement with
      | Movement.left => g.player.rect.posX - 10
      | Movement.right => g.player.rect.posX + 10
      | Movement.noMove => g.player.rect.posX)
    ∧ (g.update).player.rect.posY = g.player.rect.posY := by
  cases h : g.player_movement <;>
    simp [Game.update, h, Entity.move_left, Entity.move_right]

/-- C9: an entity's size is fixed by `Entity.new` at the given width/height and
is preserved by every operation; each directional move changes exactly one
coordinate by the given amount and preserves the view, and `set_view` leaves
the rectangle untouched. -/
theorem C9_entity_frame (x y w h amt : ℚ) (v w2 : EntityView) (e : Entity) :
    (Entity.new x y w h v).rect.sizeX = w
    ∧ (Entity.new x y w h v).rect.sizeY = h
    ∧ (e.move_left amt).rect.sizeX = e.rect.sizeX
    ∧ (e.move_left amt).rect.sizeY = e.rect.sizeY
    ∧ (e.move_left amt).rect.posX = e.rect.posX - amt
    ∧ (e.move_left amt).rect.posY = e.rect.posY
    ∧ (e.move_left amt).view = e.view
    ∧ (e.move_right amt).rect.sizeX = e.rect.sizeX
    ∧ (e.move_right amt).rect.sizeY = e.rect.sizeY
    ∧ (e.move_right amt).rect.posX = e.rect.posX + amt
    ∧ (e.move_right amt).rect.posY = e.rect.posY
    ∧ (e.move_right amt).view = e.view
    ∧ (e.move_up amt).rect.sizeX = e.rect.sizeX
    ∧ (e.move_up amt).rect.sizeY = e.rect.sizeY
    ∧ (e.move_up amt).rect.posY = e.rect.posY - amt
    ∧ (e.move_up amt).rect.posX = e.rect.posX
    ∧ (e.move_up amt).view = e.view
    ∧ (e.move_down amt).rect.sizeX = e.rect.sizeX
    ∧ (e.move_down amt).rect.sizeY = e.rect.sizeY
    ∧ (e.move_down amt).rect.posY = e.rect.posY + amt
    ∧ (e.move_down amt).rect.posX = e.rect.posX
    ∧ (e.move_down amt).view = e.view
    ∧ (e.set_view w2).rect = e.rect := by
  simp [Entity.new, Entity.move_left, Entity.move_right, Entity.move_up,
    Entity.move_down, Entity.set_view]

/-- Every survivor of the bullet loop's nested enemy filters was already in the
initial enemy collection. -/
theorem Game.bulletLoop_filter_subset (bs : List Entity) (init : List Entity)
    (x : Entity)
    (hx : x ∈ bs.foldl
      (fun cur b => cur.filter (fun enemy => !(b.move_up 20).hit_test enemy)) init) :
    x ∈ init := by
  induction bs generalizing init with
  | nil => simpa using hx
  | cons b rest ih => exact List.mem_of_mem_filter (ih _ hx)

/-- C4: after one `Game.update()` every enemy still in the collection is the
down-by-1 image of an enemy present before the call (same x, same size, same
view, y exactly one larger), whatever the bullets are; and with no bullets no
enemy is ever removed, regardless of how far down the enemies are. -/
theorem C4_enemy_descent (g : Game) :
    (∀ e ∈ (g.update).enemies, ∃ e0 ∈ g.enemies,
        e.rect.posY = e0.rect.posY + 1 ∧ e.rect.posX = e0.rect.posX
        ∧ e.rect.sizeX = e0.rect.sizeX ∧ e.rect.sizeY = e0.rect.sizeY
        ∧ e.view = e0.view)
    ∧ (g.bullets = [] →
        (g.update).enemies = g.enemies.map (fun enemy => enemy.move_down 1)) := by
  have hspec := Game.bulletLoop_spec g.bullets
    (g.enemies.map (fun enemy => enemy.move_down 1)) []
  constructor
  · intro e he
    have he2 : e ∈ g.bullets.foldl
        (fun cur b => cur.filter (fun enemy => !(b.move_up 20).hit_test enemy))
        (g.enemies.map (fun enemy => enemy.move_down 1)) := by
      rw [← hspec.1]; exact he
    have he3 := Game.bulletLoop_filter_subset _ _ _ he2
    rcases List.mem_map.mp he3 with ⟨e0, he0, rfl⟩
    exact ⟨e0, he0, by simp [Entity.move_down]⟩
  · intro hb
    show (g.bullets.foldl Game.bulletStep
      (g.enemies.map (fun enemy => enemy.move_down 1), [])).1 = _
    rw [hb]
    rfl

/-- C5: the movement-intent machine over \x7bIdle, MovingLeft, MovingRight\x7d:
a Left/Right key-down sets that direction from any state; a key-up resets to
Idle only when the intent equals the released direction and otherwise changes
nothing; other events leave the intent alone.  In particular press-Left then
release-Left gives Idle, press-Left then press-Right gives MovingRight, and
releasing Left while MovingRight stays MovingRight. -/
theorem C5_intent_machine (g gAny : Game) (e : KeyboardEvent) :
    ((g.handle_key e).player_movement =
      match e.key, e.is_down with
      | Key.left, true => Movement.left
      | Key.right, true => Movement.right
      | Key.left, false =>
          if g.player_movement = Movement.left then Movement.noMove
          else g.player_movement
      | Key.right, false =>
          if g.player_movement = Movement.right then Movement.noMove
          else g.player_movement
      | Key.space, _ => g.player_movement
      | Key.other, _ => g.player_movement)
    ∧ ((gAny.handle_key ⟨Key.left, true⟩).handle_key
        ⟨Key.left, false⟩).player_movement = Movement.noMove
    ∧ ((gAny.handle_key ⟨Key.left, true⟩).handle_key
        ⟨Key.right, true⟩).player_movement = Movement.right
    ∧ ((gAny.handle_key ⟨Key.right, true⟩).handle_key
        ⟨Key.left, false⟩).player_movement = Movement.right := by
  refine ⟨?_, ?_, ?_, ?_⟩
  · rcases e with ⟨k, d⟩
    cases k <;> cases d <;> simp [Game.handle_key]
    all_goals (split <;> simp)
  · simp [Game.handle_key]
  · simp [Game.handle_key]
  · simp [Game.handle_key]

/-- The function `Game.handle_key` appends one bullet on a Space event and leaves the
bullet collection alone otherwise. -/
theorem Game.handle_key_bullets_len (g : Game) (e : KeyboardEvent) :
    (g.handle_key e).bullets.length =
      if e.key = Key.space then g.bullets.length + 1 else g.bullets.length := by
  rcases e with ⟨k, d⟩
  cases k <;> cases d <;> simp [Game.handle_key] <;> split <;> simp

/-- No single operation shrinks the bullet collection. -/
theorem GameOp.apply_bullets_len_mono (g : Game) (op : GameOp) :
    g.bullets.length ≤ (GameOp.apply g op).bullets.length := by
  cases op with
  | tick =>
      have h := (Game.bulletLoop_spec g.bullets
        (g.enemies.map (fun enemy => enemy.move_down 1)) []).2
      show g.bullets.length ≤ (g.bullets.foldl Game.bulletStep
        (g.enemies.map (fun enemy => enemy.move_down 1), [])).2.length
      rw [h]
      simp
  | key e =>
      show g.bullets.length ≤ (g.handle_key e).bullets.length
      rw [Game.handle_key_bullets_len]
      split <;> simp

/-- C6: bullets are never removed.  `Game.update` maps every bullet to its
moved copy, preserving the collection's length; `handle_key` appends exactly
one bullet on a Space event and none otherwise; hence the bullet count is
monotone along any sequence of update/key operations. -/
theorem C6_bullets_never_removed (g : Game) (e : KeyboardEvent)
    (ops : List GameOp) :
    (g.update).bullets = g.bullets.map (fun b => b.move_up 20)
    ∧ (g.update).bullets.length = g.bullets.length
    ∧ (g.handle_key e).bullets.length =
        (if e.key = Key.space then g.bullets.length + 1 else g.bullets.length)
    ∧ g.bullets.length ≤ (ops.foldl GameOp.apply g).bullets.length := by
  have hb : (g.update).bullets = g.bullets.map (fun b => b.move_up 20) := by
    have h := (Game.bulletLoop_spec g.bullets
      (g.enemies.map (fun enemy => enemy.move_down 1)) []).2
    show (g.bullets.foldl Game.bulletStep
      (g.enemies.map (fun enemy => enemy.move_down 1), [])).2 = _
    rw [h]
    simp
  refine ⟨hb, by rw [hb]; simp, Game.handle_key_bullets_len g e, ?_⟩
  clear hb
  induction ops generalizing g with
  | nil => simp
  | cons op rest ih =>
      calc g.bullets.length ≤ (GameOp.apply g op).bullets.length :=
            GameOp.apply_bullets_len_mono g op
        _ ≤ _ := ih _

/-- Witness for C4 at the concrete game `gW`. -/
theorem C4_witness :
    (∃ e0 ∈ gW.enemies, eW.rect.posY = e0.rect.posY + 1
      ∧ eW.rect.posX = e0.rect.posX ∧ eW.rect.sizeX = e0.rect.sizeX
      ∧ eW.rect.sizeY = e0.rect.sizeY ∧ eW.view = e0.view)
    ∧ (gW.update).enemies = gW.enemies.map (fun enemy => enemy.move_down 1) :=
  ⟨(C4_enemy_descent gW).1 eW (by
      rw [(C4_enemy_descent gW).2 rfl]
      show eW ∈ [eW]
      exact List.mem_singleton.mpr rfl),
   (C4_enemy_descent gW).2 rfl⟩

/-- C10: `Game.handle_key` is a no-op for every event whose key is none of
Left/Right/Space, and for a Left/Right key-up whose direction differs from the
current movement intent — the whole game state, images included, is unchanged. -/
theorem C10_handle_key_frame (g : Game) (e : KeyboardEvent) :
    (e.key ≠ Key.left → e.key ≠ Key.right → e.key ≠ Key.space →
      g.handle_key e = g)
    ∧ (e.key = Key.left → e.is_down = false → g.player_movement ≠ Movement.left →
      g.handle_key e = g)
    ∧ (e.key = Key.right → e.is_down = false → g.player_movement ≠ Movement.right →
      g.handle_key e = g) := by
  rcases e with ⟨k, d⟩
  refine ⟨?_, ?_, ?_⟩
  · intro h1 h2 h3
    cases k
    · exact absurd rfl h1
    · exact absurd rfl h2
    · exact absurd rfl h3
    · rfl
  · intro hk hd hpm
    cases hk
    cases hd
    simp [Game.handle_key, hpm]
  · intro hk hd hpm
    cases hk
    cases hd
    simp [Game.handle_key, hpm]

/-- Witness for C10 at concrete events on `Game.new`. -/
theorem C10_witness :
    Game.new.handle_key ⟨Key.other, true⟩ = Game.new
    ∧ Game.new.handle_key ⟨Key.left, false⟩ = Game.new
    ∧ Game.new.handle_key ⟨Key.right, false⟩ = Game.new :=
  ⟨(C10_handle_key_frame Game.new ⟨Key.other, true⟩).1
      (by decide) (by decide) (by decide),
   (C10_handle_key_frame Game.new ⟨Key.left, false⟩).2.1 rfl rfl (by decide),
   (C10_handle_key_frame Game.new ⟨Key.right, false⟩).2.2 rfl rfl (by decide)⟩

/-- C2 as stated is false on the code: the Space arm of `Game::handle_key`
never consults `event.is_down()`, so a Space key-UP also spawns a bullet. -/
theorem C2_counterexample :
    (Game.new.handle_key ⟨Key.space, false⟩).bullets.length = 1
    ∧ Game.new.bullets.length = 0 :=
  ⟨rfl, rfl⟩

/-- C2 amended: `Game.handle_key` spawns a bullet exactly when the event's key
is Space — on key-down AND key-up alike — appending exactly one bullet centred
at the player's current centre with the green flat-colour view, changing
nothing else; every non-Space key leaves the bullet collection unchanged. -/
theorem C2_space_fire (g : Game) (e : KeyboardEvent) :
    (e.key = Key.space →
      g.handle_key e =
        { g with bullets := g.bullets ++
            [Entity.new_bullet (g.player.center).1 (g.player.center).2
              (EntityView.color GColor.green)] })
    ∧ (e.key ≠ Key.space → (g.handle_key e).bullets = g.bullets) := by
  rcases e with ⟨k, d⟩
  constructor
  · intro hk
    cases hk
    rfl
  · intro hk
    cases k
    · simp only [Game.handle_key]
      split
      · rfl
      · split <;> rfl
    · simp only [Game.handle_key]
      split
      · rfl
      · split <;> rfl
    · exact absurd rfl hk
    · rfl

/-- Witness for C2's amended statement at concrete events on `Game.new`. -/
theorem C2_space_fire_witness :
    Game.new.handle_key ⟨Key.space, true⟩ =
      { Game.new with bullets := Game.new.bullets ++
          [Entity.new_bullet (Game.new.player.center).1 (Game.new.player.center).2
            (EntityView.color GColor.green)] }
    ∧ (Game.new.handle_key ⟨Key.left, true⟩).bullets = Game.new.bullets :=
  ⟨(C2_space_fire Game.new ⟨Key.space, true⟩).1 rfl,
   (C2_space_fire Game.new ⟨Key.left, true⟩).2 (by decide)⟩

/-- C7: after `init` on a fresh game the enemy collection holds exactly 9
enemies, the i-th (i = 1..9) centred at (150 + i·50, 20) — concretely x =
200, 250, …, 600, all at the same y — each 30×30, all sharing the one loaded
enemy image as their view. -/
theorem C7_initial_formation (pImg eImg : Image) :
    (Game.new.init pImg eImg).enemies.length = 9
    ∧ (Game.new.init pImg eImg).enemies.map Entity.center =
        [(200, 20), (250, 20), (300, 20), (350, 20), (400, 20),
         (450, 20), (500, 20), (550, 20), (600, 20)]
    ∧ (Game.new.init pImg eImg).enemies.map (fun e => (e.rect.sizeX, e.rect.sizeY)) =
        List.replicate 9 ((30 : ℚ), (30 : ℚ))
    ∧ (Game.new.init pImg eImg).enemies.map Entity.view =
        List.replicate 9 (EntityView.image eImg) := by
  have hr : List.range' 1 9 = [1, 2, 3, 4, 5, 6, 7, 8, 9] := rfl
  refine ⟨?_, ?_, ?_, ?_⟩ <;>
    norm_num [Game.init, Game.new, Game.imgInsert, Game.imgGet, hr, List.lookup,
      Entity.new_enemy, Entity.new, Entity.center, List.replicate, Prod.ext_iff]

/-- C8: for rectangles of positive width and height, `Entity.hit_test` returns
true exactly when the two rectangles share positive area, i.e. have a common
interior point; rectangles that merely touch along an edge or corner have no
common interior point, so the test returns false for them. -/
theorem C8_hit_test_iff (a b : Entity)
    (ha1 : 0 < a.rect.sizeX) (ha2 : 0 < a.rect.sizeY)
    (hb1 : 0 < b.rect.sizeX) (hb2 : 0 < b.rect.sizeY) :
    a.hit_test b = true ↔
      ∃ p : ℚ × ℚ, Rect.containsInterior a.rect p ∧ Rect.containsInterior b.rect p := by
  simp only [Entity.hit_test, Entity.overlaps_rectangle, Bool.and_eq_true,
    decide_eq_true_eq, Rect.containsInterior, gt_iff_lt]
  constructor
  · rintro ⟨⟨⟨h1, h2⟩, h3⟩, h4⟩
    have hx : max a.rect.posX b.rect.posX <
        min (a.rect.posX + a.rect.sizeX) (b.rect.posX + b.rect.sizeX) :=
      max_lt (lt_min (by linarith) (by linarith)) (lt_min (by linarith) (by linarith))
    have hy : max a.rect.posY b.rect.posY <
        min (a.rect.posY + a.rect.sizeY) (b.rect.posY + b.rect.sizeY) :=
      max_lt (lt_min (by linarith) (by linarith)) (lt_min (by linarith) (by linarith))
    refine ⟨⟨(max a.rect.posX b.rect.posX
          + min (a.rect.posX + a.rect.sizeX) (b.rect.posX + b.rect.sizeX)) / 2,
        (max a.rect.posY b.rect.posY
          + min (a.rect.posY + a.rect.sizeY) (b.rect.posY + b.rect.sizeY)) / 2⟩,
      ⟨?_, ?_, ?_, ?_⟩, ⟨?_, ?_, ?_, ?_⟩⟩
    · have := le_max_left a.rect.posX b.rect.posX
      linarith
    · have := min_le_left (a.rect.posX + a.rect.sizeX) (b.rect.posX + b.rect.sizeX)
      linarith
    · have := le_max_left a.rect.posY b.rect.posY
      linarith
    · have := min_le_left (a.rect.posY + a.rect.sizeY) (b.rect.posY + b.rect.sizeY)
      linarith
    · have := le_max_right a.rect.posX b.rect.posX
      linarith
    · have := min_le_right (a.rect.posX + a.rect.sizeX) (b.rect.posX + b.rect.sizeX)
      linarith
    · have := le_max_right a.rect.posY b.rect.posY
      linarith
    · have := min_le_right (a.rect.posY + a.rect.sizeY) (b.rect.posY + b.rect.sizeY)
      linarith
  · rintro ⟨⟨x, y⟩, ⟨ga1, ga2, ga3, ga4⟩, gb1, gb2, gb3, gb4⟩
    refine ⟨⟨⟨?_, ?_⟩, ?_⟩, ?_⟩ <;> linarith

/-- Witness for C8 at two concrete overlapping 30×30 squares. -/
theorem C8_witness :
    Entity.hit_test (Entity.new 0 0 30 30 EntityView.noView)
      (Entity.new 10 10 30 30 EntityView.noView) = true :=
  (C8_hit_test_iff (Entity.new 0 0 30 30 EntityView.noView)
      (Entity.new 10 10 30 30 EntityView.noView)
      (by norm_num [Entity.new]) (by norm_num [Entity.new])
      (by norm_num [Entity.new]) (by norm_num [Entity.new])).mpr
    ⟨(0, 0), by norm_num [Entity.new, Rect.containsInterior],
      by norm_num [Entity.new, Rect.containsInterior]⟩
